import Mathlib

/-!
Verification of the dailystock ingestion and query pipeline.

Shallow embedding of `src/app.py` (a Streamlit inventory dashboard built on
pandas).  The embedding models:

* heterogeneous cells (`Cell`: string / number / missing, as in §9 of the
  design notes; pandas `NaN` is `Cell.empty`),
* the pandas string/number/date coercions used by `smart_transform`
  (`pd.to_datetime`, `pd.to_numeric`, `astype(str).str.strip()`),
* `smart_transform` itself (LONG and WIDE paths, `melt`, `dropna`),
* the dashboard query pipeline (date filter, item filter, low-stock filter,
  sort, metrics) and the CSV export, and
* the session-state handling of `main`.

Numbers are modelled as exact rationals (`ℚ`); pandas floats such as
`inf`/`nan` produced by string parsing are treated as parse failures
(`pd.to_numeric` results that are not finite numbers are not modelled),
and numeric cells interpreted as epoch timestamps by `pd.to_datetime` are
likewise treated as unparseable — every date in this application's sources
is a string.  All definitions are structurally recursive so that concrete
runs reduce inside the kernel.
-/

namespace DailyStock

/- Core marks the rational-number operations `irreducible`, which blocks
evaluation of concrete pipeline runs inside `rfl`/`decide` proofs; restore
the default reducibility for them within this development. -/
attribute [local semireducible] Rat.add Rat.mul Rat.sub Rat.inv

/-! ## Characters and strings

Python/pandas string handling (`str.strip`, `str.lower`, substring search)
is modelled on `List Char` so everything reduces by `rfl`/`decide`. -/

/-- Whitespace recognised by Python's `str.strip` / the pandas number
parser's surrounding-whitespace skipping. -/
def isWS (c : Char) : Bool :=
  c = ' ' || c = '\t' || c = '\n' || c = '\r' || c = '\x0b' || c = '\x0c'

/-- Strip trailing, then leading whitespace: model of `str.strip()`.
Written as a right-trim followed by a left-trim. -/
def trimChars (l : List Char) : List Char :=
  ((l.reverse.dropWhile isWS).reverse).dropWhile isWS

/-- Model of `str.strip()` on `String`. -/
def strTrim (s : String) : String := ⟨trimChars s.data⟩

/-- ASCII lower-casing of one character, as used by `str.lower()` on the
headers of this application (headers are ASCII). -/
def lowerChar (c : Char) : Char :=
  if 'A' ≤ c && c ≤ 'Z' then Char.ofNat (c.toNat + 32) else c

/-- Model of `str.lower()`. -/
def strLower (s : String) : String := ⟨s.data.map lowerChar⟩

/-- Decimal digit test. -/
def isDigitC (c : Char) : Bool := '0' ≤ c && c ≤ '9'

/-- Numeric value of a digit list (used only when `isDigitC` holds of every
character). -/
def digitsVal (l : List Char) : Nat :=
  l.foldl (fun n c => 10 * n + (c.toNat - '0'.toNat)) 0

/-- Parse a non-empty all-digit character list as a natural number. -/
def natOf? (l : List Char) : Option Nat :=
  if l ≠ [] ∧ l.all isDigitC then some (digitsVal l) else none

/-- Split a character list on a separator character (like `str.split(sep)`
for a one-character separator). -/
def splitOnCharL (sep : Char) : List Char → List (List Char)
  | [] => [[]]
  | a :: rest =>
    match splitOnCharL sep rest with
    | [] => [[a]]
    | g :: gs => if a = sep then [] :: g :: gs else (a :: g) :: gs

/-- Does `hay` start with `needle`? -/
def startsWithL : List Char → List Char → Bool
  | [], _ => true
  | _ :: _, [] => false
  | a :: as, b :: bs => a = b && startsWithL as bs

/-- Substring test (`needle in hay` in Python). -/
def containsL (needle : List Char) : List Char → Bool
  | [] => startsWithL needle []
  | a :: rest => startsWithL needle (a :: rest) || containsL needle rest

/-- Case-insensitive substring test on strings, e.g. `"item" in c.lower()`. -/
def containsSub (needle s : String) : Bool := containsL needle.data s.data

/-! ## Calendar dates

`pd.to_datetime` applied to the strings occurring in this application.  The
modelled grammar is `YYYY-MM-DD`, `YYYY/MM/DD` and month-first `M/D/YYYY`,
calendar-validated, and restricted to the representable range of a
nanosecond-precision pandas `Timestamp` (whole days from 1677-09-22 to
2262-04-11; out-of-range parses raise `OutOfBoundsDatetime`, which
`errors="coerce"` and the `try`/`except` of `is_date_column` both treat the
same as a failed parse).  Time-of-day components are not modelled. -/

structure Date where
  y : Nat
  m : Nat
  d : Nat
deriving DecidableEq

/-- Gregorian leap year. -/
def isLeap (y : Nat) : Prop := y % 4 = 0 ∧ (y % 100 ≠ 0 ∨ y % 400 = 0)

instance : DecidablePred isLeap := fun y => by unfold isLeap; infer_instance

/-- Days in a month. -/
def daysInMonth (y m : Nat) : Nat :=
  if m = 2 then (if isLeap y then 29 else 28)
  else if m = 4 ∨ m = 6 ∨ m = 9 ∨ m = 11 then 30
  else 31

/-- Lexicographic order on (year, month, day). -/
def dateLE (a b : Date) : Prop :=
  a.y < b.y ∨ (a.y = b.y ∧ (a.m < b.m ∨ (a.m = b.m ∧ a.d ≤ b.d)))

instance : ∀ a b, Decidable (dateLE a b) := fun a b => by
  unfold dateLE; infer_instance

/-- A valid calendar date inside the pandas `Timestamp` day range. -/
def validDateB (dt : Date) : Bool :=
  decide (1 ≤ dt.m ∧ dt.m ≤ 12 ∧ 1 ≤ dt.d ∧ dt.d ≤ daysInMonth dt.y dt.m ∧
    dateLE ⟨1677, 9, 22⟩ dt ∧ dateLE dt ⟨2262, 4, 11⟩)

/-- Smart constructor: succeeds exactly on valid dates. -/
def mkDate (y m d : Nat) : Option Date :=
  if validDateB ⟨y, m, d⟩ then some ⟨y, m, d⟩ else none

/-- Date grammar on a trimmed character list. -/
def parseDateChars (l : List Char) : Option Date :=
  match splitOnCharL '-' l with
  | [y, m, d] =>
    if y.length = 4 ∧ 1 ≤ m.length ∧ m.length ≤ 2 ∧ 1 ≤ d.length ∧ d.length ≤ 2 then
      match natOf? y, natOf? m, natOf? d with
      | some yn, some mn, some dn => mkDate yn mn dn
      | _, _, _ => none
    else none
  | _ =>
    match splitOnCharL '/' l with
    | [a, b, c] =>
      if a.length = 4 ∧ 1 ≤ b.length ∧ b.length ≤ 2 ∧ 1 ≤ c.length ∧ c.length ≤ 2 then
        match natOf? a, natOf? b, natOf? c with
        | some yn, some mn, some dn => mkDate yn mn dn
        | _, _, _ => none
      else if c.length = 4 ∧ 1 ≤ a.length ∧ a.length ≤ 2 ∧ 1 ≤ b.length ∧ b.length ≤ 2 then
        match natOf? a, natOf? b, natOf? c with
        | some mn, some dn, some yn => mkDate yn mn dn
        | _, _, _ => none
      else none
    | _ => none

/-- Model of `pd.to_datetime` on a string (shared by header classification
in the WIDE path and cell parsing in the LONG path, exactly as in the code,
where both call `pd.to_datetime`). -/
def parseDate (s : String) : Option Date := parseDateChars (trimChars s.data)

/-! ## Heterogeneous cells and the pandas coercions -/

/-- A raw table cell: string, number, or empty/missing (pandas `NaN`).
Numbers are exact rationals. -/
inductive Cell where
  | str (s : String)
  | num (q : ℚ)
  | empty
deriving DecidableEq

/-- Decimal digits of a natural number, most significant first (fuelled so
that the definition is structurally recursive; the fuel `n + 1` always
suffices). -/
def natCharsGo : Nat → Nat → List Char
  | 0, _ => []
  | _ + 1, 0 => []
  | f + 1, m => natCharsGo f (m / 10) ++ [Nat.digitChar (m % 10)]

/-- Decimal representation of a natural number. -/
def natChars (n : Nat) : List Char :=
  if n = 0 then ['0'] else natCharsGo (n + 1) n

/-- Fractional decimal digits of `0 ≤ x < 1`, fuelled (floats terminate well
inside the fuel). -/
def fracCharsGo : Nat → ℚ → List Char
  | 0, _ => []
  | f + 1, x =>
    if x = 0 then []
    else Nat.digitChar ((x * 10).floor.toNat % 10) :: fracCharsGo f (x * 10 - (x * 10).floor)

/-- Decimal rendering of a rational.  Models the textual form a pandas
numeric value takes in `to_csv`/`astype(str)`: sign, integer digits, and a
fractional part exactly when the value is not integral (the dtype-dependent
trailing `.0` that a float64 column would print for integral values is not
modelled). -/
def decimalRepr (q : ℚ) : String :=
  let a : ℚ := |q|
  let frCs := fracCharsGo 60 (a - a.floor)
  (if q < 0 then "-" else "") ++ ⟨natChars a.floor.toNat⟩ ++
    (if frCs = [] then "" else "." ++ ⟨frCs⟩)

/-- Unsigned decimal numeral: `digits`, `digits.digits`, `digits.` or
`.digits`. -/
def parseUnsigned (l : List Char) : Option ℚ :=
  match splitOnCharL '.' l with
  | [i] => (natOf? i).map fun n => (n : ℚ)
  | [i, f] =>
    if i = [] ∧ f = [] then none
    else
      match (if i = [] then some 0 else natOf? i),
            (if f = [] then some 0 else natOf? f) with
      | some a, some b => some ((a : ℚ) + (b : ℚ) / (10 : ℚ) ^ f.length)
      | _, _ => none
  | _ => none

/-- Optionally signed decimal numeral. -/
def parseRatChars (l : List Char) : Option ℚ :=
  match l with
  | '-' :: rest => (parseUnsigned rest).map Neg.neg
  | '+' :: rest => parseUnsigned rest
  | _ => parseUnsigned l

/-- Model of `pd.to_numeric(errors="coerce")` on one cell: numbers pass
through, missing stays missing, and a string parses as an optionally signed
integer or decimal numeral surrounded by whitespace.  Thousands separators
are rejected (`to_numeric` has no `thousands` option).  Scientific notation
and the non-finite spellings `inf`/`nan` are treated as failures (a
non-finite parse cannot be represented in `ℚ`). -/
def toNumeric (c : Cell) : Option ℚ :=
  match c with
  | .num q => some q
  | .empty => none
  | .str s => parseRatChars (trimChars s.data)

/-- Model of `pd.to_datetime(errors="coerce")` on one cell.  Numeric cells
(epoch interpretation) are treated as unparseable; every date cell in this
application's sources is a string. -/
def toDatetime (c : Cell) : Option Date :=
  match c with
  | .str s => parseDate s
  | _ => none

/-- Model of `astype(str)` followed by `str.strip()` on one cell: a missing
value becomes the string `"nan"` (and is therefore never null afterwards —
this is load-bearing for the validation behaviour of `smart_transform`). -/
def itemString (c : Cell) : String :=
  strTrim (match c with
    | .str s => s
    | .num q => decimalRepr q
    | .empty => "nan")

/-! ## Raw tables and `smart_transform` -/

/-- A raw table: ordered headers and rows.  A row is the list of cell
values in header order (`row[h]` is the cell at the index of `h` in the
headers; duplicate headers — under which the real `rename`/indexing
misbehaves — are resolved to the first occurrence and otherwise not
modelled). -/
structure RawTable where
  headers : List String
  rows : List (List Cell)
deriving DecidableEq

/-- Cell of `row` under header `h` (missing header or short row reads as a
missing value). -/
def cellAt (headers : List String) (row : List Cell) (h : String) : Cell :=
  match (headers.zip row).find? (fun p => p.1 == h) with
  | some p => p.2
  | none => Cell.empty

/-- The canonical record of the normalized dataset: the `Date`/`Item`/`Stock`
columns of the frame `smart_transform` returns.  (The LONG path of the code
also carries any extra input columns through; the spec declares their
preservation a non-goal and no claim depends on them, so only the three
canonical columns are modelled.) -/
structure Record where
  date : Date
  item : String
  stock : ℚ
deriving DecidableEq

inductive SchemaError where
  | noDateOrRequiredColumns
  | noItemColumn
deriving DecidableEq

/-- Does the header set contain `date`, `item` and `stock` case-insensitively
(`required.issubset(lower_cols)`)? -/
def longCondition (t : RawTable) : Prop :=
  "date" ∈ t.headers.map strLower ∧ "item" ∈ t.headers.map strLower ∧
    "stock" ∈ t.headers.map strLower

instance : ∀ t, Decidable (longCondition t) := fun t => by
  unfold longCondition; infer_instance

/-- First header whose lower-casing is `name` (the column that `rename`
maps onto the canonical name). -/
def headerFor (t : RawTable) (name : String) : String :=
  (t.headers.find? (fun c => strLower c == name)).getD ""

/-- LONG path of `smart_transform`: coerce the date, stock and item columns
and drop the rows in which date or stock coerced to null.  The item column
is `astype(str).str.strip()`-ed *before* `dropna`, so it contains no nulls
and never causes a drop. -/
def longRecords (t : RawTable) : List Record :=
  t.rows.filterMap fun row =>
    match toDatetime (cellAt t.headers row (headerFor t "date")),
          toNumeric (cellAt t.headers row (headerFor t "stock")) with
    | some d, some q =>
      some ⟨d, itemString (cellAt t.headers row (headerFor t "item")), q⟩
    | _, _ => none

/-- Headers classified as date columns (`is_date_column`), in original
column order. -/
def wideDateCols (t : RawTable) : List String :=
  t.headers.filter fun c => (parseDate c).isSome

/-- Headers containing the case-insensitive substring `item`. -/
def wideItemCols (t : RawTable) : List String :=
  t.headers.filter fun c => containsSub "item" (strLower c)

/-- `df.melt(id_vars, value_vars=date_cols, ...)`: one draft per
(date column, row) pair.  pandas `melt` stacks the value columns, so the
emission order is **column-major**: the outer loop is over date columns,
the inner loop over rows. -/
def meltDrafts (dateCols : List String) (rows : List (List Cell)) :
    List (String × List Cell) :=
  dateCols.flatMap fun c => rows.map fun row => (c, row)

/-- Validation of one WIDE draft, as performed column-wise on the melted
frame: the `Date` column holds the date-column header (to be parsed), the
`Stock` column that row's cell under the header, the `Item` column the
stripped string form of the row's item cell (never null).  `dropna` keeps
the draft iff date and stock both parsed. -/
def wideValidate (headers : List String) (itemCol : String)
    (draft : String × List Cell) : Option Record :=
  match parseDate draft.1, toNumeric (cellAt headers draft.2 draft.1) with
  | some d, some q => some ⟨d, itemString (cellAt headers draft.2 itemCol), q⟩
  | _, _ => none

/-- WIDE path of `smart_transform` after column classification. -/
def wideRecords (headers : List String) (dateCols : List String)
    (itemCol : String) (rows : List (List Cell)) : List Record :=
  (meltDrafts dateCols rows).filterMap (wideValidate headers itemCol)

/-- `smart_transform(df)` of `src/app.py`: LONG tables are coerced in place,
other tables are classified as WIDE (failing with the corresponding
`ValueError` when no date column or no item column is found) and reshaped
with `melt` before coercion. -/
def smart_transform (t : RawTable) : Except SchemaError (List Record) :=
  if longCondition t then
    .ok (longRecords t)
  else if wideDateCols t = [] then
    .error .noDateOrRequiredColumns
  else
    match wideItemCols t with
    | [] => .error .noItemColumn
    | itemCol :: _ => .ok (wideRecords t.headers (wideDateCols t) itemCol t.rows)

/-- Modelled from the spec: the gating ("opening") column step of §4.2.
`src/app.py` contains no gating logic — the spec consolidates three
repository variants (562 lines in total) of which only the un-gated one is
present under `src/`, so the row-exclusion step is taken from the spec's
words: before reshaping, exclude every row whose value in the gating column
is empty/missing. -/
def cellIsMissing (c : Cell) : Bool :=
  match c with
  | .empty => true
  | .str s => strTrim s == ""
  | .num _ => false

/-- Modelled from the spec: WIDE normalization in the presence of a detected
gating column — the gate-empty rows are excluded, then the surviving rows
are reshaped exactly as in the un-gated WIDE path. -/
def gatedWideRecords (headers : List String) (dateCols : List String)
    (itemCol : String) (gate : String) (rows : List (List Cell)) : List Record :=
  wideRecords headers dateCols itemCol
    (rows.filter fun row => !cellIsMissing (cellAt headers row gate))

/-! ## Query engine (`dashboard_page`, lines 149–183) -/

/-- The filter criteria assembled by the sidebar widgets. -/
structure Criteria where
  selectedDate : Date
  selectedItems : List String
  threshold : ℚ
  showLowStockOnly : Bool

/-- `df = df[df["Date"].dt.date == selected_date]`. -/
def filterByDate (ds : List Record) (d : Date) : List Record :=
  ds.filter fun r => decide (r.date = d)

/-- `if selected_items: df = df[df["Item"].isin(selected_items)]` — an empty
selection leaves the frame unchanged. -/
def filterByItems (ds : List Record) (items : List String) : List Record :=
  if items = [] then ds else ds.filter fun r => decide (r.item ∈ items)

/-- `if st.sidebar.checkbox(...): df = df[df["Stock"] < threshold]`. -/
def applyLowStockFilter (ds : List Record) (threshold : ℚ) (enabled : Bool) :
    List Record :=
  if enabled then ds.filter fun r => decide (r.stock < threshold) else ds

/-- Insert into an ascending-by-stock list. -/
def insertByStock (r : Record) : List Record → List Record
  | [] => [r]
  | x :: xs =>
    if r.stock ≤ x.stock then r :: x :: xs else x :: insertByStock r xs

/-- `df = df.sort_values("Stock")`: ascending sort on stock.  Modelled by a
structurally recursive insertion sort so that concrete runs reduce in the
kernel.  Note that `sort_values` is invoked with its default
`kind='quicksort'`, whose tie order is *not* guaranteed by pandas; no
theorem in this file depends on the tie order of this model. -/
def sortByStock (ds : List Record) : List Record :=
  ds.foldr insertByStock []

/-- Python's `int()` on an exact value: truncation toward zero. -/
def pyInt (q : ℚ) : Int := q.num.tdiv q.den

/-- Sum of the stock column. -/
def sumStock (ds : List Record) : ℚ := (ds.map Record.stock).sum

/-- The three metrics of lines 180–183: `df["Item"].nunique()`,
`int(df["Stock"].sum())` and `(df["Stock"] < threshold).sum()`. -/
structure Metrics where
  totalItems : Nat
  totalStock : Int
  lowStockCount : Nat
deriving DecidableEq

def aggregate (ds : List Record) (threshold : ℚ) : Metrics where
  totalItems := (ds.map Record.item).dedup.length
  totalStock := pyInt (sumStock ds)
  lowStockCount := ds.countP fun r => decide (r.stock < threshold)

/-- The filtered (not yet sorted) frame: date filter → item filter →
optional low-stock filter, in the order of lines 159–175. -/
def filteredView (ds : List Record) (c : Criteria) : List Record :=
  applyLowStockFilter
    (filterByItems (filterByDate ds c.selectedDate) c.selectedItems)
    c.threshold c.showLowStockOnly

/-- The view the dashboard displays and exports: the filtered frame sorted
by stock (line 177). -/
def queryView (ds : List Record) (c : Criteria) : List Record :=
  sortByStock (filteredView ds c)

/-! ## Session state, `dashboard_page` and `main` -/

/-- The Streamlit session state used by the app. -/
structure SessionState where
  clean_data : Option (List Record)
  filename : Option String
deriving DecidableEq

/-- The query/aggregation steps of `dashboard_page` (lines 159–183), run
against a session state: each filter is a boolean-mask indexing and
`sort_values` returns a new frame, all of which rebind the *local* name
`df`; the session state is only read.  (The in-place item re-normalization
of line 147 precedes these steps and is not one of them; on data produced
by `smart_transform` it is the identity, since items are already stripped
strings.)  Returns the session state as left by these steps together with
the displayed view and its metrics. -/
def dashboardQuery (s : SessionState) (c : Criteria) :
    SessionState × List Record × Metrics :=
  match s.clean_data with
  | none => (s, [], aggregate [] c.threshold)
  | some ds => (s, queryView ds c, aggregate (queryView ds c) c.threshold)

inductive LoadError where
  | fetch (msg : String)
  | schema (e : SchemaError)
deriving DecidableEq

/-- `load_data`: fetching and CSV-parsing the source is an external
collaborator (modelled as an already-available `Except`); its result is fed
to `smart_transform`. -/
def load_data (fetched : Except String RawTable) : Except LoadError (List Record) :=
  match fetched with
  | .error msg => .error (.fetch msg)
  | .ok t =>
    match smart_transform t with
    | .error e => .error (.schema e)
    | .ok ds => .ok ds

/-- One ingestion attempt of `main` (lines 125–131): on success the session
state's `clean_data` and `filename` are assigned; any exception raised
while loading hits the `except` branch *before* the assignment to
`st.session_state.clean_data` runs (Python evaluates the right-hand side
first), so the state keeps its previous value. -/
def mainStep (s : SessionState) (name : String)
    (fetched : Except String RawTable) : SessionState :=
  match load_data fetched with
  | .error _ => s
  | .ok ds => { clean_data := some ds, filename := some name }

/-! ## CSV export (lines 196–201 and the `{:.0f}`/`{:%Y-%m-%d}` Styler of
line 191, which formats only the on-screen table, not the download) -/

/-- Zero-padded four-digit (years in the modelled range have at most four
digits) and two-digit numerals, as `%Y`, `%m`, `%d` produce. -/
def pad4 (n : Nat) : String :=
  ⟨[Nat.digitChar (n / 1000 % 10), Nat.digitChar (n / 100 % 10),
    Nat.digitChar (n / 10 % 10), Nat.digitChar (n % 10)]⟩

def pad2 (n : Nat) : String :=
  ⟨[Nat.digitChar (n / 10 % 10), Nat.digitChar (n % 10)]⟩

/-- `YYYY-MM-DD`, the form `to_csv` gives a datetime64 column whose values
are whole days (pandas writes date-only text when no value has a
time-of-day component). -/
def isoDate (dt : Date) : String := pad4 dt.y ++ "-" ++ pad2 dt.m ++ "-" ++ pad2 dt.d

/-- Minimal CSV quoting, as the csv writer underlying `to_csv` performs. -/
def csvField (s : String) : String :=
  if s.data.any (fun c => c = ',' || c = '"' || c = '\n' || c = '\r') then
    "\"" ++ ⟨s.data.flatMap fun c => if c = '"' then ['"', '"'] else [c]⟩ ++ "\""
  else s

/-- One data line of the export. -/
def csvLine (r : Record) : String :=
  csvField (isoDate r.date) ++ "," ++ csvField r.item ++ "," ++
    csvField (decimalRepr r.stock) ++ "\n"

/-- `df.to_csv(index=False)` on a view of the canonical three-column frame
(the projection `[["Date", "Item", "Stock"]]` the WIDE path returns; the
LONG path's full frame is modelled separately below by `longFrameCsv`):
header row then one line per record, written incrementally in frame order.
The stock text is the value's own decimal rendering — the zero-decimal
`{:.0f}` format of line 191 belongs to the Styler of the on-screen table
and is not applied here. -/
def exportCsv (view : List Record) : String :=
  view.foldl (fun acc r => acc ++ csvLine r) "Date,Item,Stock\n"

/-- The `YYYY-MM-DD` shape: ten characters, digits in the year/month/day
positions, dashes at positions 4 and 7. -/
def isoShapeB (s : String) : Bool :=
  match s.data with
  | [a, b, c, d, e, f, g, h, i, j] =>
    isDigitC a && isDigitC b && isDigitC c && isDigitC d && (e = '-') &&
      isDigitC f && isDigitC g && (h = '-') && isDigitC i && isDigitC j
  | _ => false

/-! The WIDE path projects the frame to exactly `Date`/`Item`/`Stock`
(`return long_df[["Date", "Item", "Stock"]]`, line 96), so `exportCsv`
above is its `to_csv`.  The LONG path instead returns the **whole** frame
(`return df`, line 62): every original column survives in original order,
with the matched date/item/stock columns renamed to the canonical names and
coerced, and `df.to_csv(index=False)` derives its header row from those
columns.  The following definitions model that frame's serialization (the
dashboard's boolean-mask filters and `sort_values` keep whole rows, so the
extra columns reach the download untouched). -/

/-- The `rename` of lines 46-55 applied to one header: any header whose
lower-casing is `date`/`item`/`stock` maps to the canonical capitalized
name, every other header is kept as-is. -/
def renameLong (c : String) : String :=
  if strLower c = "date" then "Date"
  else if strLower c = "item" then "Item"
  else if strLower c = "stock" then "Stock"
  else c

/-- Comma-join of serialized fields, as one CSV line's body. -/
def commaJoin : List String → String
  | [] => ""
  | [x] => x
  | x :: xs => x ++ "," ++ commaJoin xs

/-- The text one cell of the returned LONG frame serializes to under
`to_csv`, keyed by its original header: the date column holds coerced
datetimes (written `YYYY-MM-DD`, all values being whole days), the stock
column coerced numbers, the item column stripped strings, and every other
column its original value (a missing value prints as the empty field,
`to_csv`'s default `na_rep`). -/
def longCsvCell (headers : List String) (row : List Cell) (c : String) : String :=
  if strLower c = "date" then
    match toDatetime (cellAt headers row c) with
    | some d => isoDate d
    | none => ""
  else if strLower c = "stock" then
    match toNumeric (cellAt headers row c) with
    | some q => decimalRepr q
    | none => ""
  else if strLower c = "item" then csvField (itemString (cellAt headers row c))
  else
    match cellAt headers row c with
    | .str s => csvField s
    | .num q => decimalRepr q
    | .empty => ""

/-- The rows the LONG path's `dropna` keeps: date and stock both coerced
(the stripped item column holds no nulls), exactly the survivor condition
of `longRecords`. -/
def longSurvivors (t : RawTable) : List (List Cell) :=
  t.rows.filter fun row =>
    (toDatetime (cellAt t.headers row (headerFor t "date"))).isSome &&
      (toNumeric (cellAt t.headers row (headerFor t "stock"))).isSome

/-- One exported line of the LONG frame: every column of the frame, in the
frame's column order. -/
def longCsvRow (t : RawTable) (row : List Cell) : String :=
  commaJoin (t.headers.map (longCsvCell t.headers row)) ++ "\n"

/-- `df.to_csv(index=False)` of the frame the LONG path returns: the header
row is the frame's own column list — the original headers after `rename`,
in original order, extra columns included — followed by one line per
surviving row, written incrementally in frame order. -/
def longFrameCsv (t : RawTable) : String :=
  (longSurvivors t).foldl (fun acc row => acc ++ longCsvRow t row)
    (commaJoin (t.headers.map (csvField ∘ renameLong)) ++ "\n")

/-! ## Helper lemmas -/

/-- A string whose first and last characters (if any) are non-whitespace:
the normal form `str.strip()` produces. -/
def isTrimmedB (s : String) : Bool :=
  (match s.data.head? with
   | some c => !isWS c
   | none => true) &&
  (match s.data.getLast? with
   | some c => !isWS c
   | none => true)

theorem head?_dropWhile {p : Char → Bool} {l : List Char} {c : Char}
    (h : (l.dropWhile p).head? = some c) : p c = false := by
  induction l with
  | nil => simp [List.dropWhile] at h
  | cons a t ih =>
    rw [List.dropWhile_cons] at h
    split at h
    · exact ih h
    · simp at h
      subst h
      simp_all

theorem getLast?_cons_ne {a : Char} {t : List Char} (ht : t ≠ []) :
    (a :: t).getLast? = t.getLast? := by
  cases t with
  | nil => exact absurd rfl ht
  | cons b u => simp [List.getLast?_cons]

theorem getLast?_dropWhile {p : Char → Bool} {l : List Char}
    (h : l.dropWhile p ≠ []) : (l.dropWhile p).getLast? = l.getLast? := by
  induction l with
  | nil => simp [List.dropWhile] at h
  | cons a t ih =>
    rw [List.dropWhile_cons] at h ⊢
    by_cases hpa : p a = true
    · rw [if_pos hpa] at h ⊢
      have ht : t ≠ [] := by
        intro he
        exact h (by simp [he, List.dropWhile])
      rw [ih h, getLast?_cons_ne ht]
    · rw [if_neg hpa] at h ⊢

theorem dropWhile_all {p : Char → Bool} {l : List Char}
    (h : ∀ c ∈ l, p c = true) : l.dropWhile p = [] :=
  List.dropWhile_eq_nil_iff.mpr h

theorem dropWhile_append_all {p : Char → Bool} {l₁ l₂ : List Char}
    (h : ∀ c ∈ l₁, p c = true) :
    (l₁ ++ l₂).dropWhile p = l₂.dropWhile p := by
  rw [List.dropWhile_append, dropWhile_all h]
  simp

theorem mem_dropWhile_of_not {p : Char → Bool} {l : List Char} {c : Char}
    (hc : c ∈ l) (hp : p c = false) : c ∈ l.dropWhile p := by
  induction l with
  | nil => simp at hc
  | cons a t ih =>
    rw [List.dropWhile_cons]
    rcases List.mem_cons.mp hc with h | h
    · subst h
      simp [hp]
    · split
      · exact ih h
      · exact List.mem_cons_of_mem a h

theorem mem_trimChars_of_not_ws {l : List Char} {c : Char}
    (hc : c ∈ l) (hw : isWS c = false) : c ∈ trimChars l := by
  unfold trimChars
  exact mem_dropWhile_of_not
    (List.mem_reverse.mpr (mem_dropWhile_of_not (List.mem_reverse.mpr hc) hw)) hw

theorem isTrimmedB_strTrim (s : String) : isTrimmedB (strTrim s) = true := by
  unfold isTrimmedB strTrim trimChars
  apply Bool.and_eq_true_iff.mpr
  constructor
  · split <;> rename_i h
    · rename_i c
      simp [head?_dropWhile h]
    · rfl
  · split <;> rename_i h
    · rename_i c
      have hne : (((s.data.reverse.dropWhile isWS).reverse).dropWhile isWS) ≠ [] := by
        intro he
        rw [he] at h
        simp at h
      rw [getLast?_dropWhile hne, List.getLast?_reverse] at h
      simp [head?_dropWhile h]
    · rfl

theorem trimChars_wrap {w₁ w₂ l : List Char}
    (h₁ : ∀ c ∈ w₁, isWS c = true) (h₂ : ∀ c ∈ w₂, isWS c = true) :
    trimChars (w₁ ++ l ++ w₂) = trimChars l := by
  unfold trimChars
  have hrev : (w₁ ++ l ++ w₂).reverse = w₂.reverse ++ (l.reverse ++ w₁.reverse) := by
    simp
  have hw₁ : ∀ c ∈ w₁.reverse, isWS c = true := fun c hc => h₁ c (List.mem_reverse.mp hc)
  have hw₂ : ∀ c ∈ w₂.reverse, isWS c = true := fun c hc => h₂ c (List.mem_reverse.mp hc)
  rw [hrev, dropWhile_append_all hw₂]
  by_cases hl : l.reverse.dropWhile isWS = []
  · have e1 : (l.reverse ++ w₁.reverse).dropWhile isWS = w₁.reverse.dropWhile isWS := by
      rw [List.dropWhile_append, hl]
      simp
    rw [e1, dropWhile_all hw₁, hl]
  · have e1 : (l.reverse ++ w₁.reverse).dropWhile isWS =
        l.reverse.dropWhile isWS ++ w₁.reverse := by
      rw [List.dropWhile_append, if_neg (by simpa using hl)]
    rw [e1, List.reverse_append, List.reverse_reverse, dropWhile_append_all h₁]

theorem mkDate_valid {y m d : Nat} {dt : Date} (h : mkDate y m d = some dt) :
    validDateB dt = true := by
  unfold mkDate at h
  split at h
  · rename_i hv
    cases h
    exact hv
  · exact absurd h (by simp)

theorem parseDateChars_valid {l : List Char} {dt : Date}
    (h : parseDateChars l = some dt) : validDateB dt = true := by
  unfold parseDateChars at h
  repeat' split at h
  all_goals first
    | exact mkDate_valid h
    | exact absurd h (by simp)

theorem parseDate_valid {s : String} {dt : Date} (h : parseDate s = some dt) :
    validDateB dt = true :=
  parseDateChars_valid h

theorem toDatetime_valid {c : Cell} {dt : Date} (h : toDatetime c = some dt) :
    validDateB dt = true := by
  unfold toDatetime at h
  split at h
  · exact parseDate_valid h
  · exact absurd h (by simp)

theorem natOf?_none_of_mem {l : List Char} {c : Char} (hc : c ∈ l)
    (hd : isDigitC c = false) : natOf? l = none := by
  unfold natOf?
  rw [if_neg]
  intro ⟨_, hall⟩
  have := List.all_eq_true.mp hall c hc
  simp_all

theorem splitOnCharL_ne_nil (sep : Char) (l : List Char) :
    splitOnCharL sep l ≠ [] := by
  cases l with
  | nil => simp [splitOnCharL]
  | cons a rest =>
    unfold splitOnCharL
    split
    · simp
    · split <;> simp

theorem mem_splitOnCharL {sep c : Char} {l : List Char} (hc : c ∈ l)
    (hne : c ≠ sep) : ∃ part ∈ splitOnCharL sep l, c ∈ part := by
  induction l with
  | nil => simp at hc
  | cons a rest ih =>
    unfold splitOnCharL
    split <;> rename_i heq
    · exact absurd heq (splitOnCharL_ne_nil sep rest)
    · rename_i g gs
      rcases List.mem_cons.mp hc with h | h
      · subst h
        rw [if_neg (by simp [hne])]
        exact ⟨c :: g, by simp⟩
      · obtain ⟨part, hp, hcp⟩ := ih h
        rw [heq] at hp
        split
        · exact ⟨part, by simp [List.mem_cons.mp hp], hcp⟩
        · rcases List.mem_cons.mp hp with h' | h'
          · exact ⟨a :: g, by simp, by simp [h' ▸ hcp]⟩
          · exact ⟨part, by simp [h'], hcp⟩

theorem parseUnsigned_comma {l : List Char} (hc : ',' ∈ l) :
    parseUnsigned l = none := by
  have hdot : (',' : Char) ≠ '.' := by decide
  obtain ⟨part, hp, hcp⟩ := mem_splitOnCharL hc hdot
  have hnone : natOf? part = none := natOf?_none_of_mem hcp (by decide)
  have hpne : part ≠ [] := fun he => by simp [he] at hcp
  unfold parseUnsigned
  split <;> rename_i heq
  · rename_i i
    rw [heq] at hp
    have hpi : part = i := by simpa using hp
    rw [hpi] at hnone
    rw [hnone]
    rfl
  · rename_i i f
    rw [heq] at hp
    have hif : part = i ∨ part = f := by simpa using hp
    have hcond : ¬(i = [] ∧ f = []) := by
      rcases hif with h | h
      · exact fun hx => hpne (h.trans hx.1)
      · exact fun hx => hpne (h.trans hx.2)
    rw [if_neg hcond]
    rcases hif with h | h
    · rw [h] at hnone hpne
      rw [if_neg hpne, hnone]
    · rw [h] at hnone hpne
      rw [if_neg hpne, hnone]
      cases hm : (if i = [] then some 0 else natOf? i) <;> rfl
  · rfl

theorem parseRatChars_comma {l : List Char} (hc : ',' ∈ l) :
    parseRatChars l = none := by
  unfold parseRatChars
  split
  · rename_i rest
    have : ',' ∈ rest := by
      rcases List.mem_cons.mp hc with h | h
      · exact absurd h (by decide)
      · exact h
    rw [parseUnsigned_comma this]
    rfl
  · rename_i rest
    have : ',' ∈ rest := by
      rcases List.mem_cons.mp hc with h | h
      · exact absurd h (by decide)
      · exact h
    exact parseUnsigned_comma this
  · exact parseUnsigned_comma hc

theorem itemString_trimmed (c : Cell) : isTrimmedB (itemString c) = true := by
  unfold itemString
  exact isTrimmedB_strTrim _

theorem mem_insertByStock {a r : Record} {l : List Record} :
    a ∈ insertByStock r l ↔ a = r ∨ a ∈ l := by
  induction l with
  | nil => simp [insertByStock]
  | cons x xs ih =>
    unfold insertByStock
    split
    · simp
    · simp only [List.mem_cons, ih]
      tauto

theorem mem_sortByStock {a : Record} {l : List Record} :
    a ∈ sortByStock l ↔ a ∈ l := by
  unfold sortByStock
  induction l with
  | nil => simp
  | cons x xs ih =>
    simp only [List.foldr_cons, mem_insertByStock, ih, List.mem_cons]

theorem sumStock_insertByStock (r : Record) (l : List Record) :
    sumStock (insertByStock r l) = r.stock + sumStock l := by
  induction l with
  | nil => simp [insertByStock, sumStock]
  | cons x xs ih =>
    unfold insertByStock
    split
    · rfl
    · simp only [sumStock, List.map_cons, List.sum_cons] at *
      rw [ih]
      ring

theorem sumStock_sortByStock (l : List Record) :
    sumStock (sortByStock l) = sumStock l := by
  unfold sortByStock
  induction l with
  | nil => rfl
  | cons x xs ih =>
    rw [List.foldr_cons, sumStock_insertByStock, ih]
    simp [sumStock]

theorem filterMap_eq_map_of_some {α β : Type} {f : α → Option β} {g : α → β}
    {l : List α} (h : ∀ x ∈ l, f x = some (g x)) : l.filterMap f = l.map g := by
  induction l with
  | nil => rfl
  | cons a t ih =>
    rw [List.filterMap_cons, h a (by simp), List.map_cons,
      ih fun x hx => h x (List.mem_cons_of_mem a hx)]

theorem sum_map_const {α : Type} (l : List α) (n : Nat) :
    (l.map fun _ => n).sum = l.length * n := by
  induction l with
  | nil => simp
  | cons a t ih =>
    simp [ih, Nat.succ_mul, Nat.add_comm]

theorem longRecords_inv {t : RawTable} {r : Record} (hr : r ∈ longRecords t) :
    validDateB r.date = true ∧ isTrimmedB r.item = true := by
  unfold longRecords at hr
  obtain ⟨row, _, heq⟩ := List.mem_filterMap.mp hr
  split at heq
  · rename_i d q hd hq
    cases heq
    exact ⟨toDatetime_valid hd, itemString_trimmed _⟩
  · exact absurd heq (by simp)

theorem wideValidate_inv {headers : List String} {itemCol : String}
    {draft : String × List Cell} {r : Record}
    (heq : wideValidate headers itemCol draft = some r) :
    validDateB r.date = true ∧ isTrimmedB r.item = true := by
  unfold wideValidate at heq
  split at heq
  · rename_i d q hd hq
    cases heq
    exact ⟨parseDate_valid hd, itemString_trimmed _⟩
  · exact absurd heq (by simp)

theorem wideRecords_inv {headers : List String} {dateCols : List String}
    {itemCol : String} {rows : List (List Cell)} {r : Record}
    (hr : r ∈ wideRecords headers dateCols itemCol rows) :
    validDateB r.date = true ∧ isTrimmedB r.item = true := by
  unfold wideRecords at hr
  obtain ⟨draft, _, heq⟩ := List.mem_filterMap.mp hr
  exact wideValidate_inv heq

/-! ## Claims -/

/-- C1 (amended): every record of the dataset `smart_transform` returns has
a valid calendar date and an item in whitespace-trimmed form, and any draft
whose date or stock fails to parse is dropped entirely; however — contrary
to the claim as stated — the item is *not* guaranteed non-empty: the code
converts the item column to stripped strings *before* `dropna`, so an item
cell that strips to the empty string (or a missing item cell, which becomes
the string `"nan"`) never causes a drop. -/
theorem c1_canonical_invariant (t : RawTable) (ds : List Record)
    (h : smart_transform t = .ok ds) :
    ∀ r ∈ ds, validDateB r.date = true ∧ isTrimmedB r.item = true := by
  intro r hr
  unfold smart_transform at h
  split at h
  · cases h
    exact longRecords_inv hr
  · split at h
    · exact absurd h (by simp)
    · split at h
      · exact absurd h (by simp)
      · cases h
        exact wideRecords_inv hr

/-- Witness: a concrete LONG ingestion satisfying C1's (amended) invariant. -/
theorem c1_canonical_invariant_witness :
    smart_transform ⟨["Date", "Item", "Stock"],
        [[Cell.str "2026-01-01", Cell.str " Tea ", Cell.str "5"]]⟩ =
      .ok [⟨⟨2026, 1, 1⟩, "Tea", 5⟩] ∧
    (validDateB ⟨2026, 1, 1⟩ = true ∧ isTrimmedB "Tea" = true) :=
  ⟨rfl,
    c1_canonical_invariant
      ⟨["Date", "Item", "Stock"],
        [[Cell.str "2026-01-01", Cell.str " Tea ", Cell.str "5"]]⟩
      [⟨⟨2026, 1, 1⟩, "Tea", 5⟩] rfl ⟨⟨2026, 1, 1⟩, "Tea", 5⟩ (by simp)⟩

/-- Counterexample to C1 as stated: a LONG row whose item cell is all
whitespace is *not* dropped — it survives with the empty item `""`, so the
non-empty-item part of the canonical-record invariant fails on the code. -/
theorem c1_counterexample :
    ¬ (∀ ds, smart_transform ⟨["Date", "Item", "Stock"],
          [[Cell.str "2026-01-01", Cell.str "   ", Cell.str "5"]]⟩ = .ok ds →
        ∀ r ∈ ds, strTrim r.item ≠ "") := by
  intro hclaim
  exact hclaim [⟨⟨2026, 1, 1⟩, "", 5⟩] rfl ⟨⟨2026, 1, 1⟩, "", 5⟩ (by simp) rfl

theorem mem_of_mem_filterByDate {r : Record} {ds : List Record} {d : Date}
    (h : r ∈ filterByDate ds d) : r ∈ ds :=
  (List.mem_filter.mp h).1

theorem mem_of_mem_filterByItems {r : Record} {ds : List Record}
    {items : List String} (h : r ∈ filterByItems ds items) : r ∈ ds := by
  unfold filterByItems at h
  split at h
  · exact h
  · exact (List.mem_filter.mp h).1

theorem mem_of_mem_applyLowStockFilter {r : Record} {ds : List Record}
    {threshold : ℚ} {enabled : Bool}
    (h : r ∈ applyLowStockFilter ds threshold enabled) : r ∈ ds := by
  unfold applyLowStockFilter at h
  split at h
  · exact (List.mem_filter.mp h).1
  · exact h

theorem mem_of_mem_filteredView {r : Record} {ds : List Record} {c : Criteria}
    (h : r ∈ filteredView ds c) : r ∈ ds :=
  mem_of_mem_filterByDate
    (mem_of_mem_filterByItems (mem_of_mem_applyLowStockFilter h))

/-- C2: the query/aggregation steps of `dashboard_page` (date filter, item
filter, low-stock filter, sort, metrics) leave the session-held dataset
unchanged — each step is a boolean-mask indexing or `sort_values`, which
build new frames bound to the local `df`, and the metrics only read.  The
returned view moreover only contains records drawn from the dataset. -/
theorem c2_query_reads_only (s : SessionState) (c : Criteria)
    (ds : List Record) (h : s.clean_data = some ds) :
    (dashboardQuery s c).1 = s ∧
      ∀ r ∈ (dashboardQuery s c).2.1, r ∈ ds := by
  unfold dashboardQuery
  rw [h]
  refine ⟨rfl, fun r hr => ?_⟩
  simp only at hr
  exact mem_of_mem_filteredView (mem_sortByStock.mp hr)

/-- Witness: a concrete session state is returned unchanged by the query
steps, and a record of the resulting view is a record of the dataset. -/
theorem c2_query_reads_only_witness :
    (⟨some [⟨⟨2026, 1, 5⟩, "a", 5⟩, ⟨⟨2026, 1, 5⟩, "b", 1⟩], some "Nayakka"⟩ :
        SessionState).clean_data =
      some [⟨⟨2026, 1, 5⟩, "a", 5⟩, ⟨⟨2026, 1, 5⟩, "b", 1⟩] ∧
    (dashboardQuery
        ⟨some [⟨⟨2026, 1, 5⟩, "a", 5⟩, ⟨⟨2026, 1, 5⟩, "b", 1⟩], some "Nayakka"⟩
        ⟨⟨2026, 1, 5⟩, [], 3, true⟩).1 =
      ⟨some [⟨⟨2026, 1, 5⟩, "a", 5⟩, ⟨⟨2026, 1, 5⟩, "b", 1⟩], some "Nayakka"⟩ ∧
    (⟨⟨2026, 1, 5⟩, "b", 1⟩ : Record) ∈
      ([⟨⟨2026, 1, 5⟩, "a", 5⟩, ⟨⟨2026, 1, 5⟩, "b", 1⟩] : List Record) :=
  ⟨rfl,
    (c2_query_reads_only
      ⟨some [⟨⟨2026, 1, 5⟩, "a", 5⟩, ⟨⟨2026, 1, 5⟩, "b", 1⟩], some "Nayakka"⟩
      ⟨⟨2026, 1, 5⟩, [], 3, true⟩
      [⟨⟨2026, 1, 5⟩, "a", 5⟩, ⟨⟨2026, 1, 5⟩, "b", 1⟩] rfl).1,
    (c2_query_reads_only
      ⟨some [⟨⟨2026, 1, 5⟩, "a", 5⟩, ⟨⟨2026, 1, 5⟩, "b", 1⟩], some "Nayakka"⟩
      ⟨⟨2026, 1, 5⟩, [], 3, true⟩
      [⟨⟨2026, 1, 5⟩, "a", 5⟩, ⟨⟨2026, 1, 5⟩, "b", 1⟩] rfl).2
      ⟨⟨2026, 1, 5⟩, "b", 1⟩ (by decide)⟩

/-- C3 (spec-modelled): in the gated WIDE normalization, a row whose gating
value is empty/missing contributes zero records wherever it occurs and
whatever its other cells hold — removing it from the table leaves the
output unchanged. -/
theorem c3_gating_excludes_row (headers dateCols : List String)
    (itemCol gate : String) (pre post : List (List Cell)) (row : List Cell)
    (h : cellIsMissing (cellAt headers row gate) = true) :
    gatedWideRecords headers dateCols itemCol gate (pre ++ row :: post) =
      gatedWideRecords headers dateCols itemCol gate (pre ++ post) := by
  unfold gatedWideRecords
  rw [List.filter_append, List.filter_append, List.filter_cons, h]
  simp

/-- Witness: a concrete gated WIDE table in which the gate-empty row (with
otherwise perfectly valid cells) contributes nothing. -/
theorem c3_gating_excludes_row_witness :
    cellIsMissing
      (cellAt ["Item", "Opening Stock", "2026-01-01"]
        [Cell.str "Tea", Cell.empty, Cell.num 5] "Opening Stock") = true ∧
    gatedWideRecords ["Item", "Opening Stock", "2026-01-01"] ["2026-01-01"]
        "Item" "Opening Stock"
        [[Cell.str "Tea", Cell.empty, Cell.num 5],
         [Cell.str "Cof", Cell.num 1, Cell.num 7]] =
      gatedWideRecords ["Item", "Opening Stock", "2026-01-01"] ["2026-01-01"]
        "Item" "Opening Stock" [[Cell.str "Cof", Cell.num 1, Cell.num 7]] :=
  ⟨rfl,
    c3_gating_excludes_row ["Item", "Opening Stock", "2026-01-01"]
      ["2026-01-01"] "Item" "Opening Stock" []
      [[Cell.str "Cof", Cell.num 1, Cell.num 7]]
      [Cell.str "Tea", Cell.empty, Cell.num 5] rfl⟩

/-- C6 (amended): the Total Stock metric is computed over exactly the
filtered view that is displayed (never the unfiltered dataset), every
record contributing independently with no deduplication; but — contrary to
the claim as stated — the displayed number is `int(df["Stock"].sum())`,
the *truncation toward zero* of the exact sum, not the exact sum itself. -/
theorem c6_totalStock_truncated_sum (ds : List Record) (c : Criteria) :
    (aggregate (queryView ds c) c.threshold).totalStock =
      pyInt (sumStock (filteredView ds c)) := by
  unfold aggregate queryView
  simp only
  rw [sumStock_sortByStock]

/-- Counterexample to C6 as stated: on a view holding the single stock
value 3/2 the metric is 1, which differs from the exact sum 3/2 — the code
truncates. -/
theorem c6_counterexample :
    (aggregate [⟨⟨2026, 1, 5⟩, "a", mkRat 3 2⟩] 10).totalStock = 1 ∧
    ((aggregate [⟨⟨2026, 1, 5⟩, "a", mkRat 3 2⟩] 10).totalStock : ℚ) ≠
      sumStock [⟨⟨2026, 1, 5⟩, "a", mkRat 3 2⟩] :=
  ⟨rfl, by decide⟩

/-- C9: a table that satisfies neither the LONG condition (headers do not
contain all of date/item/stock case-insensitively) nor has any header that
parses as a calendar date fails with `NoDateOrRequiredColumns` — for every
such table, including those that also lack an item column, so the failure
is decided before and independently of the item-column check. -/
theorem c9_no_date_schema_failure (t : RawTable)
    (h1 : ¬ longCondition t) (h2 : ∀ c ∈ t.headers, parseDate c = none) :
    smart_transform t = .error .noDateOrRequiredColumns := by
  have hd : wideDateCols t = [] := by
    unfold wideDateCols
    rw [List.filter_eq_nil_iff]
    intro c hc
    simp [h2 c hc]
  unfold smart_transform
  rw [if_neg h1, if_pos hd]

/-- Witness: the spec's own example, headers `[Foo, Bar]`. -/
theorem c9_no_date_schema_failure_witness :
    decide (¬ longCondition ⟨["Foo", "Bar"], []⟩) = true ∧
    smart_transform ⟨["Foo", "Bar"], []⟩ = .error .noDateOrRequiredColumns :=
  ⟨rfl, c9_no_date_schema_failure ⟨["Foo", "Bar"], []⟩ (by decide) (by decide)⟩

/-- C10: when loading a newly selected source fails — whether fetching
raised or `smart_transform` raised a schema error — the `except` branch of
`main` is reached before the assignment to `st.session_state.clean_data`
executes, so the session state (and with it any previously ingested
dataset) is exactly what it was. -/
theorem c10_failed_load_preserves_state (s : SessionState) (name : String)
    (fetched : Except String RawTable) (e : LoadError)
    (h : load_data fetched = .error e) : mainStep s name fetched = s := by
  unfold mainStep
  rw [h]

/-- Witness: a schema-failing source leaves a concrete populated session
state untouched. -/
theorem c10_failed_load_preserves_state_witness :
    load_data (.ok ⟨["Foo", "Bar"], []⟩) =
      .error (.schema .noDateOrRequiredColumns) ∧
    mainStep ⟨some [⟨⟨2026, 1, 5⟩, "Tea", 5⟩], some "Nayakka"⟩ "BSC Andheri"
        (.ok ⟨["Foo", "Bar"], []⟩) =
      ⟨some [⟨⟨2026, 1, 5⟩, "Tea", 5⟩], some "Nayakka"⟩ :=
  ⟨rfl,
    c10_failed_load_preserves_state
      ⟨some [⟨⟨2026, 1, 5⟩, "Tea", 5⟩], some "Nayakka"⟩ "BSC Andheri"
      (.ok ⟨["Foo", "Bar"], []⟩) (.schema .noDateOrRequiredColumns) rfl⟩

/-- C4 (amended): on the WIDE path — for *every* such table, drops
included — `smart_transform` produces exactly the records of a column-major
nested loop: the outer loop runs over date columns, the inner loop over
rows (the order of pandas `melt`, not the row-major order the claim
states), validating one draft per (row, date column) pair in place.  The
melted frame holds exactly one draft per pair (the length clause), and
validation preserves the relative order of surviving drafts: a draft that
fails validation contributes nothing and disturbs nothing, and a draft that
validates contributes its record exactly between the records of the drafts
before and after it. -/
theorem c4_wide_emission (t : RawTable) (itemCol : String) (rest : List String)
    (hlong : ¬ longCondition t)
    (hdates : wideDateCols t ≠ [])
    (hitem : wideItemCols t = itemCol :: rest) :
    smart_transform t = .ok ((wideDateCols t).flatMap fun c =>
      t.rows.filterMap fun row => wideValidate t.headers itemCol (c, row)) ∧
    (meltDrafts (wideDateCols t) t.rows).length =
      (wideDateCols t).length * t.rows.length ∧
    (∀ (d₁ d₂ : List (String × List Cell)) (x : String × List Cell),
      wideValidate t.headers itemCol x = none →
        (d₁ ++ x :: d₂).filterMap (wideValidate t.headers itemCol) =
          (d₁ ++ d₂).filterMap (wideValidate t.headers itemCol)) ∧
    (∀ (d₁ d₂ : List (String × List Cell)) (x : String × List Cell) (r : Record),
      wideValidate t.headers itemCol x = some r →
        (d₁ ++ x :: d₂).filterMap (wideValidate t.headers itemCol) =
          d₁.filterMap (wideValidate t.headers itemCol) ++
            r :: d₂.filterMap (wideValidate t.headers itemCol)) := by
  refine ⟨?_, ?_, ?_, ?_⟩
  · unfold smart_transform
    rw [if_neg hlong, if_neg hdates, hitem]
    refine congrArg Except.ok ?_
    unfold wideRecords meltDrafts
    rw [List.filterMap_flatMap]
    apply List.flatMap_congr
    intro c _
    rw [List.filterMap_map]
    rfl
  · unfold meltDrafts
    rw [List.length_flatMap]
    rw [List.map_congr_left
      (fun c _ => by simp : ∀ c ∈ wideDateCols t,
        (List.length ∘ fun c => t.rows.map fun row => (c, row)) c =
          t.rows.length)]
    exact sum_map_const _ _
  · intro d₁ d₂ x hx
    rw [List.filterMap_append, List.filterMap_append,
      List.filterMap_cons_none hx]
  · intro d₁ d₂ x r hx
    rw [List.filterMap_append, List.filterMap_cons_some hx]

/-- Witness: a 2×2 WIDE table with one empty stock cell — so one draft is
dropped — is emitted by the column-major nested loop, and the dropped draft
disturbs nothing: removing it from a concrete draft list leaves the
validated output unchanged. -/
theorem c4_wide_emission_witness :
    decide (¬ longCondition ⟨["Item", "2026-01-01", "2026-01-02"],
      [[Cell.str "A", Cell.num 1, Cell.num 2],
       [Cell.str "B", Cell.num 3, Cell.empty]]⟩) = true ∧
    smart_transform ⟨["Item", "2026-01-01", "2026-01-02"],
        [[Cell.str "A", Cell.num 1, Cell.num 2],
         [Cell.str "B", Cell.num 3, Cell.empty]]⟩ =
      .ok ((wideDateCols ⟨["Item", "2026-01-01", "2026-01-02"],
          [[Cell.str "A", Cell.num 1, Cell.num 2],
           [Cell.str "B", Cell.num 3, Cell.empty]]⟩).flatMap fun c =>
        [[Cell.str "A", Cell.num 1, Cell.num 2],
         [Cell.str "B", Cell.num 3, Cell.empty]].filterMap fun row =>
          wideValidate ["Item", "2026-01-01", "2026-01-02"] "Item" (c, row)) ∧
    ([(("2026-01-02" : String), [Cell.str "A", Cell.num 1, Cell.num 2])] ++
        ("2026-01-02", [Cell.str "B", Cell.num 3, Cell.empty]) :: []).filterMap
        (wideValidate ["Item", "2026-01-01", "2026-01-02"] "Item") =
      ([(("2026-01-02" : String), [Cell.str "A", Cell.num 1, Cell.num 2])] ++
        []).filterMap (wideValidate ["Item", "2026-01-01", "2026-01-02"] "Item") :=
  ⟨rfl,
    (c4_wide_emission ⟨["Item", "2026-01-01", "2026-01-02"],
        [[Cell.str "A", Cell.num 1, Cell.num 2],
         [Cell.str "B", Cell.num 3, Cell.empty]]⟩ "Item" []
      (by decide) (by decide) rfl).1,
    (c4_wide_emission ⟨["Item", "2026-01-01", "2026-01-02"],
        [[Cell.str "A", Cell.num 1, Cell.num 2],
         [Cell.str "B", Cell.num 3, Cell.empty]]⟩ "Item" []
      (by decide) (by decide) rfl).2.2.1
      [("2026-01-02", [Cell.str "A", Cell.num 1, Cell.num 2])] []
      ("2026-01-02", [Cell.str "B", Cell.num 3, Cell.empty]) rfl⟩

/-- Counterexample to C4 as stated: the 2×2 WIDE table is emitted in
column-major `melt` order — (first date, row A), (first date, row B),
(second date, row A), (second date, row B) — which differs from the
row-major order the claim requires. -/
theorem c4_counterexample :
    smart_transform ⟨["Item", "2026-01-01", "2026-01-02"],
        [[Cell.str "A", Cell.num 1, Cell.num 2],
         [Cell.str "B", Cell.num 3, Cell.num 4]]⟩ =
      .ok [⟨⟨2026, 1, 1⟩, "A", 1⟩, ⟨⟨2026, 1, 1⟩, "B", 3⟩,
           ⟨⟨2026, 1, 2⟩, "A", 2⟩, ⟨⟨2026, 1, 2⟩, "B", 4⟩] ∧
    ([⟨⟨2026, 1, 1⟩, "A", 1⟩, ⟨⟨2026, 1, 1⟩, "B", 3⟩,
      ⟨⟨2026, 1, 2⟩, "A", 2⟩, ⟨⟨2026, 1, 2⟩, "B", 4⟩] : List Record) ≠
      [⟨⟨2026, 1, 1⟩, "A", 1⟩, ⟨⟨2026, 1, 2⟩, "A", 2⟩,
       ⟨⟨2026, 1, 1⟩, "B", 3⟩, ⟨⟨2026, 1, 2⟩, "B", 4⟩] :=
  ⟨rfl, by decide⟩

/-- C7 (amended): the stock parser (`pd.to_numeric` on a string cell)
accepts an integer or decimal numeral with arbitrary surrounding
whitespace — the whitespace is immaterial to the result — but, contrary to
the claim as stated, it does **not** accept thousands separators: any
stock-candidate containing a comma fails to parse (and the record is
therefore dropped by validation). -/
theorem c7_stock_parsing :
    (∀ w₁ s w₂ : String, (∀ c ∈ w₁.data, isWS c = true) →
        (∀ c ∈ w₂.data, isWS c = true) →
        toNumeric (.str (w₁ ++ s ++ w₂)) = toNumeric (.str s)) ∧
    (∀ s : String, ',' ∈ s.data → toNumeric (.str s) = none) := by
  constructor
  · intro w₁ s w₂ h₁ h₂
    show parseRatChars (trimChars (w₁ ++ s ++ w₂).data) = _
    rw [String.data_append, String.data_append, trimChars_wrap h₁ h₂]
    rfl
  · intro s hc
    show parseRatChars (trimChars s.data) = none
    exact parseRatChars_comma (mem_trimChars_of_not_ws hc (by decide))

/-- Witness: whitespace around `12.5` is immaterial; `1,234` fails. -/
theorem c7_stock_parsing_witness :
    toNumeric (Cell.str (" " ++ "12.5" ++ " ")) = toNumeric (Cell.str "12.5") ∧
    toNumeric (Cell.str "1,234") = none :=
  ⟨c7_stock_parsing.1 " " "12.5" " " (by decide) (by decide),
   c7_stock_parsing.2 "1,234" (by decide)⟩

/-- Counterexample to C7 as stated: a LONG row with stock-candidate
`"1,234"` does not survive with stock 1234 — the record is dropped and the
dataset comes back empty. -/
theorem c7_counterexample :
    smart_transform ⟨["Date", "Item", "Stock"],
        [[Cell.str "2026-01-01", Cell.str "Tea", Cell.str "1,234"]]⟩ =
      .ok [] ∧
    (Except.ok ([] : List Record) : Except SchemaError (List Record)) ≠
      .ok [⟨⟨2026, 1, 1⟩, "Tea", 1234⟩] :=
  ⟨rfl, by simp⟩

theorem join_cons (x : String) (xs : List String) :
    String.join (x :: xs) = x ++ String.join xs := by
  show xs.foldl (· ++ ·) ("" ++ x) = _
  have hoist : ∀ (l : List String) (a : String),
      l.foldl (· ++ ·) a = a ++ l.foldl (· ++ ·) "" := by
    intro l
    induction l with
    | nil => intro a; exact (String.append_empty a).symm
    | cons y t ih =>
      intro a
      rw [List.foldl_cons, List.foldl_cons, ih (a ++ y), ih ("" ++ y),
        String.append_assoc]
      rfl
  rw [hoist xs ("" ++ x)]
  rfl

theorem foldl_append_eq_join {α : Type} (g : α → String) (l : List α)
    (preface : String) :
    l.foldl (fun acc x => acc ++ g x) preface =
      preface ++ String.join (l.map g) := by
  induction l generalizing preface with
  | nil => exact (String.append_empty preface).symm
  | cons x xs ih =>
    rw [List.foldl_cons, ih, List.map_cons, join_cons, String.append_assoc]

theorem digitChar_isDigitC (n : Nat) :
    isDigitC (Nat.digitChar (n % 10)) = true :=
  (by decide : ∀ m, m < 10 → isDigitC (Nat.digitChar m) = true) _
    (Nat.mod_lt _ (by decide))

theorem isoShapeB_isoDate (dt : Date) : isoShapeB (isoDate dt) = true := by
  have hdata : (isoDate dt).data =
      [Nat.digitChar (dt.y / 1000 % 10), Nat.digitChar (dt.y / 100 % 10),
       Nat.digitChar (dt.y / 10 % 10), Nat.digitChar (dt.y % 10), '-',
       Nat.digitChar (dt.m / 10 % 10), Nat.digitChar (dt.m % 10), '-',
       Nat.digitChar (dt.d / 10 % 10), Nat.digitChar (dt.d % 10)] := by
    unfold isoDate pad4 pad2
    rw [String.data_append, String.data_append, String.data_append,
      String.data_append]
    rfl
  unfold isoShapeB
  rw [hdata]
  simp [digitChar_isDigitC]

/-- C8 (amended): the exported CSV of any view has one line per record in
the view's own order, with dates rendered in `YYYY-MM-DD` shape; but two
clauses of the claim as stated fail on the code.  First, the stock text is
the value's own full-precision rendering: the zero-decimal `{:.0f}` format
belongs to the on-screen Styler (line 191) and `df.to_csv` (line 198) never
applies it.  Second, the header row is the exported frame's *own* column
list: it is exactly `Date,Item,Stock` for the canonical three-column frame
the WIDE path projects to (first clause), while the LONG path's frame keeps
its original column order and any extra columns, so its header is the
comma-join of the renamed original headers (third clause) and equals
`Date,Item,Stock` only when those are exactly the frame's columns (fourth
clause). -/
theorem c8_export_shape :
    (∀ view : List Record,
      exportCsv view = "Date,Item,Stock\n" ++ String.join (view.map csvLine)) ∧
    (∀ r : Record, isoShapeB (isoDate r.date) = true) ∧
    (∀ t : RawTable, longFrameCsv t =
      commaJoin (t.headers.map (csvField ∘ renameLong)) ++ "\n" ++
        String.join ((longSurvivors t).map (longCsvRow t))) ∧
    (∀ t : RawTable, t.headers.map renameLong = ["Date", "Item", "Stock"] →
      commaJoin (t.headers.map (csvField ∘ renameLong)) = "Date,Item,Stock") := by
  refine ⟨?_, ?_, ?_, ?_⟩
  · intro view
    exact foldl_append_eq_join csvLine view "Date,Item,Stock\n"
  · intro r
    exact isoShapeB_isoDate r.date
  · intro t
    exact foldl_append_eq_join (longCsvRow t) (longSurvivors t) _
  · intro t ht
    rw [← List.map_map, ht]
    rfl

/-- Witness: a one-record canonical view exports as header plus its line
with the date in `YYYY-MM-DD` shape; a LONG frame with reordered and extra
columns exports its own header, which for exactly-canonical columns is
`Date,Item,Stock`. -/
theorem c8_export_shape_witness :
    exportCsv [⟨⟨2026, 1, 5⟩, "Tea", mkRat 15 4⟩] =
      "Date,Item,Stock\n" ++
        String.join ([⟨⟨2026, 1, 5⟩, "Tea", mkRat 15 4⟩].map csvLine) ∧
    isoShapeB (isoDate ⟨2026, 1, 5⟩) = true ∧
    longFrameCsv ⟨["Item", "Date", "Stock", "Note"],
        [[Cell.str "Tea", Cell.str "2026-01-05", Cell.str "5", Cell.str "x"]]⟩ =
      commaJoin ((["Item", "Date", "Stock", "Note"] : List String).map
          (csvField ∘ renameLong)) ++ "\n" ++
        String.join ((longSurvivors ⟨["Item", "Date", "Stock", "Note"],
            [[Cell.str "Tea", Cell.str "2026-01-05", Cell.str "5",
              Cell.str "x"]]⟩).map
          (longCsvRow ⟨["Item", "Date", "Stock", "Note"],
            [[Cell.str "Tea", Cell.str "2026-01-05", Cell.str "5",
              Cell.str "x"]]⟩)) ∧
    (["Date", "Item", "Stock"] : List String).map renameLong =
      ["Date", "Item", "Stock"] ∧
    commaJoin ((["Date", "Item", "Stock"] : List String).map
        (csvField ∘ renameLong)) = "Date,Item,Stock" :=
  ⟨c8_export_shape.1 [⟨⟨2026, 1, 5⟩, "Tea", mkRat 15 4⟩],
   c8_export_shape.2.1 ⟨⟨2026, 1, 5⟩, "Tea", 5⟩,
   c8_export_shape.2.2.1 ⟨["Item", "Date", "Stock", "Note"],
     [[Cell.str "Tea", Cell.str "2026-01-05", Cell.str "5", Cell.str "x"]]⟩,
   rfl,
   c8_export_shape.2.2.2 ⟨["Date", "Item", "Stock"], []⟩ rfl⟩

/-- Counterexample to C8 as stated, at two concrete inputs.  A canonical
view with stock 15/4 exports the text `3.75`, not the zero-decimal `4` that
`{:.0f}` would produce.  And a LONG source with columns
`Item,Date,Stock,Note` exports that header — the original column order with
the extra column — not the claimed `Date,Item,Stock`. -/
theorem c8_counterexample :
    exportCsv [⟨⟨2026, 1, 5⟩, "Tea", mkRat 15 4⟩] =
      "Date,Item,Stock\n2026-01-05,Tea,3.75\n" ∧
    ("Date,Item,Stock\n2026-01-05,Tea,3.75\n" : String) ≠
      "Date,Item,Stock\n2026-01-05,Tea,4\n" ∧
    longFrameCsv ⟨["Item", "Date", "Stock", "Note"],
        [[Cell.str "Tea", Cell.str "2026-01-05", Cell.str "5", Cell.str "x"]]⟩ =
      "Item,Date,Stock,Note\nTea,2026-01-05,5,x\n" ∧
    ("Item,Date,Stock,Note\nTea,2026-01-05,5,x\n" : String) ≠
      "Date,Item,Stock\n2026-01-05,Tea,5\n" :=
  ⟨rfl, by decide, rfl, by decide⟩

end DailyStock
